import Mathlib

/-!
Shallow embedding of the SkyWatch Radar aircraft reconciliation engine of
this repository (src/src/js/aircraft.js, src/src/js/api.js,
src/src/js/config.js), together with theorems settling the claims about it.

Modelling conventions:
* `Date.now()` timestamps are integers (milliseconds) passed explicitly as a
  `now` parameter; the source calls `Date.now()` several times inside one
  synchronous update, which is modelled as the single `now` of that update.
* JS numbers carrying coordinates, raw altitudes and speeds are rationals
  (the decimal literals of the source, exactly); the Haversine distance,
  which uses `Math.sin`, `Math.cos`, `Math.sqrt` and `Math.atan2`, is over
  the reals.
* The JS `Map` backing the aircraft store is an insertion-ordered
  association list (JS `Map` iteration order is insertion order, updating an
  existing key keeps its position, deletion preserves the order of the
  rest).
* Nullable upstream fields are `Option`s; fallible operations return
  `Option`/`Except`.
-/

/-! Configuration constants (src/src/js/config.js). -/

/-- CONFIG.aircraft.display.trailMaxPoints (config.js line 163). -/
def trailMaxPoints : Nat := 100

/-- CONFIG.aircraft.display.trailDuration, ms (config.js line 164). -/
def trailDuration : Int := 600000

/-- The eviction timeout hardcoded in updateAircraft (aircraft.js line 56). -/
def evictionTimeoutMs : Int := 120000

/-- CONFIG.api.opensky.rateLimit.minInterval, ms (config.js line 22). -/
def rateLimitMinInterval : Int := 10000

/-- CONFIG.dataQuality.minSpeed, knots (config.js line 197). -/
def dqMinSpeed : Int := 30

/-- CONFIG.dataQuality.maxSpeed, knots (config.js line 198). -/
def dqMaxSpeed : Int := 700

/-- CONFIG.dataQuality.minAltitude, feet (config.js line 199). -/
def dqMinAltitude : Int := -1000

/-- CONFIG.dataQuality.maxAltitude, feet (config.js line 200). -/
def dqMaxAltitude : Int := 60000

/-- CONFIG.aircraft.militaryIndicators.icaoRanges (config.js lines 120-125),
as (start, end) pairs. -/
def icaoRanges : List (Int × Int) :=
  [(0xADF7C8, 0xAFFFFF), (0x43C000, 0x43CFFF), (0x3AA000, 0x3AFFFF), (0x3BA000, 0x3BFFFF)]

/-- CONFIG.aircraft.militaryIndicators.callsignPrefixes (config.js lines 128-143). -/
def militaryCallsignMarkers : List String :=
  ["RCH", "EVAL", "ARMY", "NAVY", "CNV", "SPAR", "JAKE", "CHIEF", "BOXER", "HUNT",
   "NATO", "RAF", "GAF", "RSAF"]

/-- CONFIG.features.trails (config.js line 186). -/
def featuresTrails : Bool := true

/-! Data model. -/

/-- One entry of an aircraft's trail, as pushed by addTrailPoint
(aircraft.js lines 101-106). -/
structure TrailPoint where
  lat : Rat
  lon : Rat
  altitude : Option Int
  time : Int
  deriving DecidableEq, Repr

/-- A parsed aircraft object, exactly the shape produced by parseStateVector
(api.js lines 164-194); stored records have the same shape because the
store's merge is `Object.assign` of such an object. `lastSeen` models the
`_lastSeen` property. -/
structure Aircraft where
  icao24 : String
  callsign : String
  origin : String
  lat : Rat
  lon : Rat
  altitude : Option Int
  onGround : Bool
  speed : Option Int
  heading : Option Int
  verticalRate : Option Int
  lastUpdate : Option Int
  positionUpdate : Option Int
  squawk : Option String
  positionSource : String
  isMilitary : Bool
  trail : List TrailPoint
  lastSeen : Int
  deriving DecidableEq, Repr

/-- The filter state singleton (aircraft.js lines 16-22). -/
structure Filters where
  civilian : Bool
  military : Bool
  minAltitude : Int
  maxAltitude : Int
  searchQuery : String
  deriving DecidableEq, Repr

/-- Initial value of the filter state (aircraft.js lines 16-22). -/
def defaultFilters : Filters :=
  { civilian := true, military := true, minAltitude := 0, maxAltitude := 45000,
    searchQuery := "" }

/-- The mutable module state of AircraftManager (aircraft.js lines 11-13 and
16-22): the icao24-keyed store, the cached filtered list, the selected
aircraft (observably, its icao24 key) and the filter state. -/
structure MState where
  store : List (String × Aircraft)
  selected : Option String
  filters : Filters
  filtered : List Aircraft
  deriving DecidableEq, Repr

/-- The AircraftManager state at page load: empty store, no selection,
default filters, empty filtered list. -/
def initState : MState :=
  { store := [], selected := none, filters := defaultFilters, filtered := [] }

/-! String helpers mirroring the JS string operations used by the source.
They operate on the underlying character lists; the data handled by the
program is ASCII, for which `Char.toLower`/`Char.toUpper` agree with the JS
`toLowerCase`/`toUpperCase`. -/

/-- Helper for `String.prototype.includes`: scan for `p` at every suffix. -/
def includesAux (p : List Char) : List Char → Bool
  | [] => p.isEmpty
  | c :: rest => if p.isPrefixOf (c :: rest) then true else includesAux p rest

/-- JS `s.includes(p)` (substring containment). -/
def strIncludes (s p : String) : Bool := includesAux p.toList s.toList

/-- JS `s.startsWith(p)`. -/
def strStartsWith (s p : String) : Bool := p.toList.isPrefixOf s.toList

/-- Whitespace as stripped by JS `trim` (the ASCII part). -/
def jsIsWhitespace (c : Char) : Bool :=
  c.toNat = 32 ∨ (9 ≤ c.toNat ∧ c.toNat ≤ 13)

/-- JS `s.trim()`. -/
def jsTrim (s : String) : String :=
  String.mk (((s.toList.dropWhile jsIsWhitespace).reverse.dropWhile jsIsWhitespace).reverse)

/-- ASCII lower-casing of one character, as JS `toLowerCase` acts on the
ASCII data this program handles. -/
def jsCharToLower (c : Char) : Char :=
  if 65 ≤ c.toNat ∧ c.toNat ≤ 90 then Char.ofNat (c.toNat + 32) else c

/-- ASCII upper-casing of one character. -/
def jsCharToUpper (c : Char) : Char :=
  if 97 ≤ c.toNat ∧ c.toNat ≤ 122 then Char.ofNat (c.toNat - 32) else c

/-- JS `s.toLowerCase()` on ASCII data. -/
def jsToLower (s : String) : String := String.mk (s.toList.map jsCharToLower)

/-- JS `s.toUpperCase()` on ASCII data. -/
def jsToUpper (s : String) : String := String.mk (s.toList.map jsCharToUpper)

/-- JS `Math.round` on an exact rational: round half up. -/
def jsRound (q : Rat) : Int := ⌊q + 1/2⌋

/-! JS `parseInt(s, 16)`: after an optional sign and an optional `0x`/`0X`
marker, the longest leading run of hex digits is the value; if that run is
empty the result is NaN, modelled as `none`.  All NaN comparisons in the
source are false, which the `Option` plumbing below reproduces. -/

/-- Value of one hexadecimal digit, if any. -/
def hexDigitVal (c : Char) : Option Nat :=
  if 48 ≤ c.toNat ∧ c.toNat ≤ 57 then some (c.toNat - 48)
  else if 97 ≤ c.toNat ∧ c.toNat ≤ 102 then some (c.toNat - 87)
  else if 65 ≤ c.toNat ∧ c.toNat ≤ 70 then some (c.toNat - 55)
  else none

/-- Accumulate the longest leading run of hex digits; `seen` records whether
at least one digit has been consumed. -/
def parseHexDigits : List Char → Nat → Bool → Option Nat
  | [], acc, seen => if seen then some acc else none
  | c :: rest, acc, seen =>
    match hexDigitVal c with
    | some d => parseHexDigits rest (acc * 16 + d) true
    | none => if seen then some acc else none

/-- Strip an optional `0x`/`0X` marker, then read hex digits. -/
def parseHexBody : List Char → Option Nat
  | '0' :: 'x' :: rest => parseHexDigits rest 0 false
  | '0' :: 'X' :: rest => parseHexDigits rest 0 false
  | cs => parseHexDigits cs 0 false

/-- JS `parseInt(s, 16)`; `none` is NaN. -/
def parseHexInt (s : String) : Option Int :=
  match s.toList with
  | '-' :: rest => (parseHexBody rest).map (fun n => -(n : Int))
  | '+' :: rest => (parseHexBody rest).map (fun n => (n : Int))
  | cs => (parseHexBody cs).map (fun n => (n : Int))

/-! Classifier (api.js lines 227-254, isMilitaryAircraft). -/

/-- isMilitaryAircraft (api.js lines 227-254).  The `!icao24` guard is the
empty string in this model; a NaN `parseInt` result makes every range
comparison false. -/
def isMilitaryAircraft (icao24 : String) (callsign : Option String) : Bool :=
  if icao24 = "" then false
  else
    let icaoNum := parseHexInt (jsTrim icao24)
    let inMilitaryRange := icaoRanges.any (fun r =>
      match icaoNum with
      | some n => decide (r.1 ≤ n ∧ n ≤ r.2)
      | none => false)
    if inMilitaryRange then true
    else
      match callsign with
      | some c =>
        if c ≠ "" then
          militaryCallsignMarkers.any (fun p => strStartsWith (jsToUpper (jsTrim c)) p)
        else false
      | none => false

/-- Modelled from the spec (section 4.4) for comparison with the code: true
iff the id parses as a base-16 integer inside a configured military range,
or else the trimmed, uppercased callsign starts with a configured military
callsign marker. -/
def specClassify (icao24 : String) (callsign : Option String) : Bool :=
  (icaoRanges.any (fun r =>
    match parseHexInt (jsTrim icao24) with
    | some n => decide (r.1 ≤ n ∧ n ≤ r.2)
    | none => false))
  || (match callsign with
      | some c => militaryCallsignMarkers.any (fun p => strStartsWith (jsToUpper (jsTrim c)) p)
      | none => false)

/-! Parser (api.js lines 119-219). -/

/-- One raw OpenSky state vector, already destructured into its 17 fields
(api.js lines 125-143).  The arity guard `state.length < 17` of the source
acts before this structure can be formed and is outside the model. -/
structure RawState where
  icao24 : String
  callsign : Option String
  origin_country : Option String
  time_position : Option Int
  last_contact : Option Int
  longitude : Option Rat
  latitude : Option Rat
  baro_altitude : Option Rat
  on_ground : Option Bool
  velocity : Option Rat
  true_track : Option Rat
  vertical_rate : Option Rat
  sensors : Option (List Int)
  geo_altitude : Option Rat
  squawk : Option String
  spi : Option Bool
  position_source : Option Nat
  deriving DecidableEq, Repr

/-- isValidAircraftData (api.js lines 200-219): position bounds, then
altitude and speed plausibility on the already-converted values. -/
def isValidAircraftData (latitude longitude : Rat) (altitude speed : Option Int) : Bool :=
  if latitude < -90 ∨ latitude > 90 then false
  else if longitude < -180 ∨ longitude > 180 then false
  else if (match altitude with
           | some a => decide (a < dqMinAltitude) || decide (a > dqMaxAltitude)
           | none => false) then false
  else if (match speed with
           | some sp => decide (sp < dqMinSpeed) || decide (sp > dqMaxSpeed)
           | none => false) then false
  else true

/-- parseStateVector (api.js lines 119-195): drop vectors with null
position, convert units, drop implausible values, otherwise build the
aircraft object.  `now` models the parser's `Date.now()`. -/
def parseStateVector (now : Int) (s : RawState) : Option Aircraft :=
  match s.latitude, s.longitude with
  | some latitude, some longitude =>
    let altitude := s.baro_altitude.map (fun b => jsRound (b * (3.28084 : Rat)))
    let speed := s.velocity.map (fun v => jsRound (v * (1.94384 : Rat)))
    let verticalRate := s.vertical_rate.map (fun v => jsRound (v * (196.85 : Rat)))
    let heading := s.true_track.map (fun t => jsRound t)
    if isValidAircraftData latitude longitude altitude speed then
      some
        { icao24 := jsTrim s.icao24
          callsign := match s.callsign with
            | some c => if c = "" then "N/A" else jsTrim c
            | none => "N/A"
          origin := match s.origin_country with
            | some o => if o = "" then "Unknown" else o
            | none => "Unknown"
          lat := latitude
          lon := longitude
          altitude := altitude
          onGround := s.on_ground.getD false
          speed := speed
          heading := heading
          verticalRate := verticalRate
          lastUpdate := s.last_contact
          positionUpdate := s.time_position
          squawk := s.squawk
          positionSource := match s.position_source with
            | some 0 => "ADS-B"
            | some 1 => "ASTERIX"
            | some 2 => "MLAT"
            | _ => "Unknown"
          isMilitary := isMilitaryAircraft s.icao24 s.callsign
          trail := []
          lastSeen := now }
    else none
  | _, _ => none

/-! Haversine distance (aircraft.js lines 124-139). -/

/-- toRad (aircraft.js lines 137-139). -/
noncomputable def toRad (degrees : Real) : Real := degrees * (Real.pi / 180)

/-- JS `Math.atan2 y x`. -/
noncomputable def jsAtan2 (y x : Real) : Real :=
  if x > 0 then Real.arctan (y / x)
  else if x < 0 then
    (if y ≥ 0 then Real.arctan (y / x) + Real.pi else Real.arctan (y / x) - Real.pi)
  else
    (if y > 0 then Real.pi / 2 else if y < 0 then -(Real.pi / 2) else 0)

/-- calculateDistance (aircraft.js lines 124-135): great-circle distance in
km by the Haversine formula with Earth radius 6371 km. -/
noncomputable def calculateDistance (lat1 lon1 lat2 lon2 : Rat) : Real :=
  let R : Real := 6371
  let dLat := toRad ((lat2 : Real) - (lat1 : Real))
  let dLon := toRad ((lon2 : Real) - (lon1 : Real))
  let a := Real.sin (dLat / 2) * Real.sin (dLat / 2) +
    Real.cos (toRad (lat1 : Real)) * Real.cos (toRad (lat2 : Real)) *
    (Real.sin (dLon / 2) * Real.sin (dLon / 2))
  let c := 2 * jsAtan2 (Real.sqrt a) (Real.sqrt (1 - a))
  R * c

/-! Trail management (aircraft.js lines 81-118). -/

/-- The point-count truncation of addTrailPoint (aircraft.js lines
108-112): `trail.slice(-maxPoints)` keeps the most recent `maxPoints`
entries. -/
def truncateTrail (maxPoints : Nat) (trail : List TrailPoint) : List TrailPoint :=
  if trail.length > maxPoints then trail.drop (trail.length - maxPoints) else trail

/-- The age pruning of addTrailPoint (aircraft.js lines 114-117): keep
points with `now - point.time < maxAge`. -/
def pruneTrailByAge (now maxAge : Int) (trail : List TrailPoint) : List TrailPoint :=
  trail.filter (fun point => decide (now - point.time < maxAge))

/-- addTrailPoint (aircraft.js lines 81-118).  A missing last trail point
(empty trail) skips the displacement check; a displacement below 0.1 km is
an early return with the record untouched; otherwise the new point is
pushed, then the trail is truncated to `trailMaxPoints` entries, then aged
out by `trailDuration`.  In the model the `trail` field always exists, so
the `!aircraft.trail` initialisation of lines 82-84 has no separate case. -/
noncomputable def addTrailPoint (aircraft newData : Aircraft) (now : Int) : Aircraft :=
  let newPoint : TrailPoint :=
    { lat := newData.lat, lon := newData.lon, altitude := newData.altitude, time := now }
  let pushed :=
    pruneTrailByAge now trailDuration (truncateTrail trailMaxPoints (aircraft.trail ++ [newPoint]))
  let push : Aircraft := { aircraft with trail := pushed }
  match aircraft.trail.getLast? with
  | none => push
  | some lastTrail =>
    if calculateDistance lastTrail.lat lastTrail.lon newData.lat newData.lon < (0.1 : Real) then
      aircraft
    else push

/-! State store (aircraft.js lines 27-76, updateAircraft). -/

/-- The ids of a batch, i.e. the contents of the `currentIcaos` set built by
updateAircraft (aircraft.js lines 29-33). -/
def batchIds (batch : List Aircraft) : List String := batch.map (fun o => o.icao24)

/-- Merge of an observation into an existing record (aircraft.js lines
35-46): the trail is (conditionally) updated in place, then `Object.assign`
copies every field of the observation - including its `trail` - over the
record, and `_lastSeen` is set to now.  The `Object.assign` therefore
discards the trail just produced by addTrailPoint. -/
noncomputable def mergeRecord (existing obs : Aircraft) (now : Int) : Aircraft :=
  let _trailUpdated := if featuresTrails then addTrailPoint existing obs now else existing
  { obs with lastSeen := now }

/-- Insertion of a first observation (aircraft.js lines 47-52): `_lastSeen`
is set to now and the trail is reset to empty. -/
def insertRecord (obs : Aircraft) (now : Int) : Aircraft :=
  { obs with lastSeen := now, trail := [] }

/-- `aircraftMap.has k` on the association-list model. -/
def containsKey (s : List (String × Aircraft)) (k : String) : Bool :=
  s.any (fun kv => kv.1 == k)

/-- `aircraftMap.get k` on the association-list model. -/
def lookupStore (s : List (String × Aircraft)) (k : String) : Option Aircraft :=
  (s.find? (fun kv => kv.1 == k)).map Prod.snd

/-- One iteration of the forEach of updateAircraft (aircraft.js lines
31-53): update the existing entry in place, or append a new entry (JS `Map`
insertion order). -/
noncomputable def upsertObs (s : List (String × Aircraft)) (obs : Aircraft) (now : Int) :
    List (String × Aircraft) :=
  if containsKey s obs.icao24 then
    s.map (fun kv => if kv.1 == obs.icao24 then (kv.1, mergeRecord kv.2 obs now) else kv)
  else
    s ++ [(obs.icao24, insertRecord obs now)]

/-- The whole forEach of updateAircraft over a batch. -/
noncomputable def mergePhase (s : List (String × Aircraft)) (batch : List Aircraft)
    (now : Int) : List (String × Aircraft) :=
  batch.foldl (fun acc o => upsertObs acc o now) s

/-- The eviction sweep predicate (aircraft.js lines 57-58): an entry is
deleted iff its id is not in the current batch AND `now - _lastSeen`
exceeds the timeout; `sweepKeep` is true iff the entry survives. -/
def sweepKeep (ids : List String) (now : Int) (kv : String × Aircraft) : Bool :=
  if kv.1 ∈ ids then true
  else if now - kv.2.lastSeen > evictionTimeoutMs then false
  else true

/-- The per-record predicate of applyFilters (aircraft.js lines 145-170):
military/civilian visibility, altitude band (absent altitude passes),
case-insensitive substring search over callsign and icao24. -/
def filterPred (f : Filters) (a : Aircraft) : Bool :=
  if a.isMilitary && !f.military then false
  else if !a.isMilitary && !f.civilian then false
  else if (match a.altitude with
           | some alt => decide (alt < f.minAltitude) || decide (alt > f.maxAltitude)
           | none => false) then false
  else if f.searchQuery ≠ "" &&
      !(strIncludes (jsToLower a.callsign) (jsToLower f.searchQuery) ||
        strIncludes (jsToLower a.icao24) (jsToLower f.searchQuery)) then false
  else true

/-- applyFilters (aircraft.js lines 144-171): a pure recomputation,
filtering the store's values in store iteration order. -/
def applyFilters (store : List (String × Aircraft)) (f : Filters) : List Aircraft :=
  (store.map Prod.snd).filter (filterPred f)

/-- updateAircraft (aircraft.js lines 27-76): merge the batch, sweep stale
records absent from the batch, clear the selection if its record was swept,
recompute the filtered list.  The returned counts of the source are pure
reads of this state and are omitted. -/
noncomputable def updateAircraft (st : MState) (batch : List Aircraft) (now : Int) : MState :=
  let currentIcaos := batchIds batch
  let merged := mergePhase st.store batch now
  let swept := merged.filter (sweepKeep currentIcaos now)
  let selected' :=
    match st.selected with
    | none => none
    | some sid =>
      if merged.any (fun kv => kv.1 == sid && !(sweepKeep currentIcaos now kv)) then none
      else some sid
  { store := swept, selected := selected', filters := st.filters,
    filtered := applyFilters swept st.filters }

/-! Fetch pipeline (api.js lines 18-95, config.js App.fetchAndUpdate lines
287-318).  The network is modelled by passing the (optional) HTTP response
explicitly: `none` is a thrown network error. -/

/-- canMakeRequest (api.js lines 18-22). -/
def canMakeRequest (lastRequestTime now : Int) : Bool :=
  decide (now - lastRequestTime ≥ rateLimitMinInterval)

/-- A distinguishable failure signal: the distinct `Error`s thrown by
getAllStates (api.js lines 69-74), plus a thrown network error. -/
inductive FetchError where
  | rateLimitExceeded : FetchError
  | httpError : Nat → FetchError
  | networkError : FetchError
  deriving DecidableEq, Repr

/-- An upstream HTTP response: `ok`/`status` as in the Fetch API; `states`
is the parsed body's `states` array, `none` when `data` or `data.states` is
null (api.js lines 84-86). -/
structure HttpResponse where
  ok : Bool
  status : Nat
  states : Option (List RawState)
  deriving DecidableEq, Repr

/-- getAllStates (api.js lines 47-95) after the fetch resolved (or threw,
`response = none`): non-ok statuses throw (429 distinctly), a missing body
yields `[]`, otherwise each state vector is parsed and failures are
filtered out. -/
def getAllStates (response : Option HttpResponse) (now : Int) :
    Except FetchError (List Aircraft) :=
  match response with
  | none => Except.error FetchError.networkError
  | some resp =>
    if resp.ok = false then
      if resp.status = 429 then Except.error FetchError.rateLimitExceeded
      else Except.error (FetchError.httpError resp.status)
    else
      match resp.states with
      | none => Except.ok []
      | some sv => Except.ok (sv.filterMap (parseStateVector now))

/-- App.fetchAndUpdate (config.js lines 287-318): skip entirely when the
rate limit window has not elapsed; otherwise fetch once, and on failure
catch the error leaving the store untouched (no retry).  The Bool records
whether an outbound fetch was issued. -/
noncomputable def fetchAndUpdate (st : MState) (lastRequestTime now : Int)
    (response : Option HttpResponse) : MState × Bool :=
  if canMakeRequest lastRequestTime now = false then (st, false)
  else
    match getAllStates response now with
    | Except.error _ => (st, true)
    | Except.ok batch => (updateAircraft st batch now, true)

/-! Definitions used by the proofs and the concrete witnesses. -/

/-- The in-place update performed on an entry whose key matches the
observation. -/
def assignK (obs : Aircraft) (now : Int) (kv : String × Aircraft) : String × Aircraft :=
  if kv.1 == obs.icao24 then (kv.1, { obs with lastSeen := now }) else kv

/-- The last observation of the batch carrying a given id, i.e. the one
whose `Object.assign` wins in the forEach of updateAircraft. -/
def lastObsFor (batch : List Aircraft) (k : String) : Option Aircraft :=
  batch.foldl (fun acc o => if o.icao24 = k then some o else acc) none

/-- Pointwise description of the whole merge pass on an entry whose key is
already present: the entry's record becomes the last observation of its id
(with `_lastSeen := now`), or stays put when its id is not in the batch. -/
def assignAllMap (batch : List Aircraft) (now : Int) (kv : String × Aircraft) :
    String × Aircraft :=
  match lastObsFor batch kv.1 with
  | some o => (kv.1, { o with lastSeen := now })
  | none => kv

/-- A concrete parsed observation for the witnesses, with the shape the
parser produces (empty trail). -/
def sampleObs (id : String) (lat lon : Rat) : Aircraft :=
  { icao24 := id, callsign := "N/A", origin := "Unknown", lat := lat, lon := lon,
    altitude := some 5000, onGround := false, speed := none, heading := none,
    verticalRate := none, lastUpdate := none, positionUpdate := none, squawk := none,
    positionSource := "Unknown", isMilitary := false, trail := [], lastSeen := 0 }

/-- A concrete raw state vector for the witnesses. -/
def sampleRaw : RawState :=
  { icao24 := "abc123", callsign := some "SWR123", origin_country := some "Switzerland",
    time_position := some 1000, last_contact := some 1000, longitude := some 8,
    latitude := some 47, baro_altitude := some 10000, on_ground := some false,
    velocity := some 200, true_track := some 90, vertical_rate := some 0,
    sensors := none, geo_altitude := some 10100, squawk := some "1000",
    spi := some false, position_source := some 0 }

/-! Supporting lemmas about the store operations. -/

/-- The merge of aircraft.js lines 35-46 is observably a plain overwrite:
`Object.assign` copies every field of the observation (its `trail`
included) over the record, so the record updated by addTrailPoint is
discarded and only `_lastSeen := now` remains of the merge bookkeeping. -/
theorem mergeRecord_eq (existing obs : Aircraft) (now : Int) :
    mergeRecord existing obs now = { obs with lastSeen := now } := rfl

theorem insertRecord_eq_of_trail_nil {obs : Aircraft} (h : obs.trail = []) (now : Int) :
    insertRecord obs now = { obs with lastSeen := now } := by
  cases obs with
  | mk _ _ _ _ _ _ _ _ _ _ _ _ _ _ _ t _ =>
    simp only at h
    simp [insertRecord, h]


theorem assignK_fst (obs : Aircraft) (now : Int) (kv : String × Aircraft) :
    (assignK obs now kv).1 = kv.1 := by
  unfold assignK; split <;> rfl

theorem upsertObs_of_contains {s : List (String × Aircraft)} {obs : Aircraft} (now : Int)
    (h : containsKey s obs.icao24 = true) :
    upsertObs s obs now = s.map (assignK obs now) := by
  unfold upsertObs
  rw [if_pos h]
  rfl

theorem upsertObs_of_not_contains {s : List (String × Aircraft)} {obs : Aircraft} (now : Int)
    (h : containsKey s obs.icao24 = false) :
    upsertObs s obs now = s ++ [(obs.icao24, insertRecord obs now)] := by
  unfold upsertObs
  rw [h]
  simp

theorem containsKey_iff {s : List (String × Aircraft)} {k : String} :
    containsKey s k = true ↔ ∃ kv ∈ s, kv.1 = k := by
  simp [containsKey, List.any_eq_true]

theorem containsKey_map_assignK (s : List (String × Aircraft)) (o : Aircraft) (now : Int)
    (k : String) : containsKey (s.map (assignK o now)) k = containsKey s k := by
  induction s with
  | nil => rfl
  | cons kv rest ih => simp [containsKey, List.any_cons, assignK_fst] at ih ⊢; rw [ih]

theorem containsKey_upsert_self (s : List (String × Aircraft)) (o : Aircraft) (now : Int) :
    containsKey (upsertObs s o now) o.icao24 = true := by
  by_cases h : containsKey s o.icao24 = true
  · rw [upsertObs_of_contains now h, containsKey_map_assignK]; exact h
  · rw [upsertObs_of_not_contains now (by simpa using h)]
    simp [containsKey, List.any_append]

theorem containsKey_upsert_mono {s : List (String × Aircraft)} {k : String} (o : Aircraft)
    (now : Int) (h : containsKey s k = true) : containsKey (upsertObs s o now) k = true := by
  by_cases hc : containsKey s o.icao24 = true
  · rw [upsertObs_of_contains now hc, containsKey_map_assignK]; exact h
  · rw [upsertObs_of_not_contains now (by simpa using hc)]
    simp [containsKey, List.any_append] at h ⊢
    exact Or.inl h

theorem mergePhase_cons (s : List (String × Aircraft)) (o : Aircraft) (batch : List Aircraft)
    (now : Int) : mergePhase s (o :: batch) now = mergePhase (upsertObs s o now) batch now := rfl

theorem mergePhase_nil (s : List (String × Aircraft)) (now : Int) :
    mergePhase s [] now = s := rfl

theorem containsKey_mergePhase_mono {s : List (String × Aircraft)} {k : String}
    (batch : List Aircraft) (now : Int) (h : containsKey s k = true) :
    containsKey (mergePhase s batch now) k = true := by
  induction batch generalizing s with
  | nil => exact h
  | cons o rest ih => exact ih (containsKey_upsert_mono o now h)

theorem containsKey_mergePhase_of_mem {batch : List Aircraft} {o : Aircraft}
    (s : List (String × Aircraft)) (now : Int) (h : o ∈ batch) :
    containsKey (mergePhase s batch now) o.icao24 = true := by
  induction batch generalizing s with
  | nil => cases h
  | cons b rest ih =>
    rcases List.mem_cons.mp h with rfl | h'
    · exact containsKey_mergePhase_mono rest now (containsKey_upsert_self s o now)
    · exact ih (upsertObs s b now) h'

theorem mem_upsert {s : List (String × Aircraft)} {o : Aircraft} {now : Int}
    {kv : String × Aircraft} (h : kv ∈ upsertObs s o now) :
    kv ∈ s ∨ (kv.1 = o.icao24 ∧
      (kv.2 = { o with lastSeen := now } ∨ kv.2 = insertRecord o now)) := by
  unfold upsertObs at h
  split at h
  · rcases List.mem_map.mp h with ⟨kv0, hkv0, heq⟩
    by_cases hb : (kv0.1 == o.icao24) = true
    · rw [if_pos hb] at heq
      right
      have hk : kv0.1 = o.icao24 := by simpa using hb
      constructor
      · rw [← heq]; exact hk
      · left; rw [← heq]; rfl
    · rw [if_neg hb] at heq
      left; rw [← heq]; exact hkv0
  · rcases List.mem_append.mp h with h' | h'
    · left; exact h'
    · right
      have : kv = (o.icao24, insertRecord o now) := by simpa using h'
      rw [this]
      exact ⟨rfl, Or.inr rfl⟩

theorem mem_upsert_of_key_ne {s : List (String × Aircraft)} {o : Aircraft} {now : Int}
    {kv : String × Aircraft} (h : kv ∈ upsertObs s o now) (hne : kv.1 ≠ o.icao24) :
    kv ∈ s := by
  rcases mem_upsert h with h' | ⟨hk, _⟩
  · exact h'
  · exact absurd hk hne

theorem mem_upsert_key_val {s : List (String × Aircraft)} {o : Aircraft} {now : Int}
    {kv : String × Aircraft} (h : kv ∈ upsertObs s o now) (hk : kv.1 = o.icao24) :
    kv.2 = { o with lastSeen := now } ∨ kv.2 = insertRecord o now := by
  unfold upsertObs at h
  split at h
  case isTrue hc =>
    rcases List.mem_map.mp h with ⟨kv0, hkv0, heq⟩
    by_cases hb : (kv0.1 == o.icao24) = true
    · rw [if_pos hb] at heq
      left; rw [← heq]; rfl
    · rw [if_neg hb] at heq
      exfalso
      rw [← heq] at hk
      exact hb (by simpa using hk)
  case isFalse hc =>
    rcases List.mem_append.mp h with h' | h'
    · exfalso
      exact hc (containsKey_iff.mpr ⟨kv, h', hk⟩)
    · have : kv = (o.icao24, insertRecord o now) := by simpa using h'
      right; rw [this]

theorem mem_mergePhase {batch : List Aircraft} {now : Int} {s : List (String × Aircraft)}
    {kv : String × Aircraft} (h : kv ∈ mergePhase s batch now) :
    kv ∈ s ∨ ∃ o ∈ batch, kv.1 = o.icao24 ∧
      (kv.2 = { o with lastSeen := now } ∨ kv.2 = insertRecord o now) := by
  induction batch generalizing s with
  | nil => exact Or.inl h
  | cons o rest ih =>
    rcases ih h with h' | ⟨o', ho', hk, hv⟩
    · rcases mem_upsert h' with h'' | ⟨hk, hv⟩
      · exact Or.inl h''
      · exact Or.inr ⟨o, List.mem_cons_self o rest, hk, hv⟩
    · exact Or.inr ⟨o', List.mem_cons_of_mem o ho', hk, hv⟩

theorem batchIds_cons (o : Aircraft) (batch : List Aircraft) :
    batchIds (o :: batch) = o.icao24 :: batchIds batch := rfl

theorem mem_mergePhase_frame {batch : List Aircraft} {now : Int}
    {s : List (String × Aircraft)} {kv : String × Aircraft}
    (h : kv ∈ mergePhase s batch now) (hk : kv.1 ∉ batchIds batch) : kv ∈ s := by
  induction batch generalizing s with
  | nil => exact h
  | cons o rest ih =>
    have hk' : kv.1 ∉ batchIds rest := by
      intro hm; exact hk (by rw [batchIds_cons]; exact List.mem_cons_of_mem _ hm)
    have hne : kv.1 ≠ o.icao24 := by
      intro he; exact hk (by rw [batchIds_cons, he]; exact List.mem_cons_self _ _)
    exact mem_upsert_of_key_ne (ih h hk') hne


theorem lastObsFor_foldl_acc (batch : List Aircraft) (k : String) (acc : Option Aircraft) :
    batch.foldl (fun a o => if o.icao24 = k then some o else a) acc =
      (lastObsFor batch k).or acc := by
  induction batch generalizing acc with
  | nil => simp [lastObsFor]
  | cons o rest ih =>
    show List.foldl _ (if o.icao24 = k then some o else acc) rest
        = (List.foldl (fun a o => if o.icao24 = k then some o else a)
            (if o.icao24 = k then some o else none) rest).or acc
    rw [ih, ih]
    cases h : lastObsFor rest k with
    | some x => rfl
    | none => by_cases he : o.icao24 = k <;> simp [he]

theorem lastObsFor_cons (o : Aircraft) (batch : List Aircraft) (k : String) :
    lastObsFor (o :: batch) k =
      (lastObsFor batch k).or (if o.icao24 = k then some o else none) := by
  show List.foldl _ (if o.icao24 = k then some o else none) batch = _
  rw [lastObsFor_foldl_acc]

theorem lastObsFor_eq_none_iff (batch : List Aircraft) (k : String) :
    lastObsFor batch k = none ↔ k ∉ batchIds batch := by
  induction batch with
  | nil => simp [lastObsFor, batchIds]
  | cons o rest ih =>
    rw [lastObsFor_cons, batchIds_cons]
    by_cases he : o.icao24 = k
    · rw [if_pos he]
      have hmem : k ∈ o.icao24 :: batchIds rest := by
        rw [he]; exact List.mem_cons_self _ _
      cases hx : lastObsFor rest k with
      | some x => simp [hmem]
      | none => simp [hmem]
    · rw [if_neg he]
      cases hx : lastObsFor rest k with
      | some x =>
        rw [hx] at ih
        have hk : k ∈ batchIds rest := by
          by_contra hc
          exact Option.noConfusion (ih.mpr hc)
        simp [List.mem_cons, hk]
      | none =>
        have hk : k ∉ batchIds rest := by rw [hx] at ih; exact ih.mp rfl
        simp only [Option.none_or]
        constructor
        · intro _ hm
          rcases List.mem_cons.mp hm with he2 | hm2
          · exact he he2.symm
          · exact hk hm2
        · intro _; trivial

theorem lastObsFor_mem {batch : List Aircraft} {k : String} {o : Aircraft}
    (h : lastObsFor batch k = some o) : o ∈ batch ∧ o.icao24 = k := by
  induction batch with
  | nil => simp [lastObsFor] at h
  | cons b rest ih =>
    rw [lastObsFor_cons] at h
    cases hr : lastObsFor rest k with
    | some x =>
      rw [hr, Option.or_some, Option.some.injEq] at h
      rcases ih (by rw [hr, h]) with ⟨hm, hk⟩
      exact ⟨List.mem_cons_of_mem _ hm, hk⟩
    | none =>
      rw [hr, Option.none_or] at h
      by_cases he : b.icao24 = k
      · rw [if_pos he] at h
        cases h
        exact ⟨List.mem_cons_self _ _, he⟩
      · rw [if_neg he] at h
        cases h

theorem mergePhase_value_at_key {batch : List Aircraft} {now : Int}
    (hbt : ∀ o ∈ batch, o.trail = []) :
    ∀ (s : List (String × Aircraft)), ∀ kv ∈ mergePhase s batch now, ∀ o',
      lastObsFor batch kv.1 = some o' → kv.2 = { o' with lastSeen := now } := by
  induction batch with
  | nil =>
    intro s kv _ o' h'
    simp [lastObsFor] at h'
  | cons o rest ih =>
    intro s kv hkv o' hlast
    rw [lastObsFor_cons] at hlast
    cases hrest : lastObsFor rest kv.1 with
    | some x =>
      rw [hrest, Option.or_some, Option.some.injEq] at hlast
      exact ih (fun o' ho' => hbt o' (List.mem_cons_of_mem _ ho')) (upsertObs s o now) kv hkv o'
        (by rw [hrest, hlast])
    | none =>
      rw [hrest, Option.none_or] at hlast
      have hnm : kv.1 ∉ batchIds rest := (lastObsFor_eq_none_iff rest kv.1).mp hrest
      by_cases he : o.icao24 = kv.1
      · rw [if_pos he] at hlast
        cases hlast
        have hmem : kv ∈ upsertObs s o now := mem_mergePhase_frame hkv hnm
        rcases mem_upsert_key_val hmem he.symm with hv | hv
        · exact hv
        · rw [hv]
          exact insertRecord_eq_of_trail_nil (hbt o (List.mem_cons_self _ _)) now
      · rw [if_neg he] at hlast
        cases hlast


theorem assignAllMap_cons (o : Aircraft) (rest : List Aircraft) (now : Int)
    (kv : String × Aircraft) :
    assignAllMap rest now (assignK o now kv) = assignAllMap (o :: rest) now kv := by
  unfold assignAllMap assignK
  by_cases hk : (kv.1 == o.icao24) = true
  · rw [if_pos hk]
    have hk' : kv.1 = o.icao24 := by simpa using hk
    rw [lastObsFor_cons]
    cases h : lastObsFor rest kv.1 with
    | some x => rw [Option.or_some]
    | none => rw [Option.none_or, if_pos hk'.symm]
  · rw [if_neg hk]
    have hk' : kv.1 ≠ o.icao24 := by simpa using hk
    rw [lastObsFor_cons]
    cases h : lastObsFor rest kv.1 with
    | some x => rw [Option.or_some]
    | none => rw [Option.none_or, if_neg (fun he => hk' he.symm)]

theorem mergePhase_eq_map {batch : List Aircraft} {now : Int} :
    ∀ {s : List (String × Aircraft)}, (∀ o ∈ batch, containsKey s o.icao24 = true) →
      mergePhase s batch now = s.map (assignAllMap batch now) := by
  induction batch with
  | nil =>
    intro s _
    rw [mergePhase_nil]
    have : ∀ kv : String × Aircraft, assignAllMap [] now kv = kv := fun kv => rfl
    rw [funext this]
    exact (List.map_id _).symm
  | cons o rest ih =>
    intro s hc
    rw [mergePhase_cons,
      upsertObs_of_contains now (hc o (List.mem_cons_self _ _)),
      ih (fun o' ho' => by
        rw [containsKey_map_assignK]
        exact hc o' (List.mem_cons_of_mem _ ho')),
      List.map_map]
    have : (assignAllMap rest now ∘ assignK o now) = assignAllMap (o :: rest) now :=
      funext (fun kv => assignAllMap_cons o rest now kv)
    rw [this]

theorem list_map_id_of_mem {α : Type} {l : List α} {f : α → α}
    (h : ∀ a ∈ l, f a = a) : l.map f = l := by
  induction l with
  | nil => rfl
  | cons a rest ih =>
    rw [List.map_cons, h a (List.mem_cons_self _ _), ih (fun b hb => h b (List.mem_cons_of_mem _ hb))]

theorem keys_map_assignK (s : List (String × Aircraft)) (o : Aircraft) (now : Int) :
    (s.map (assignK o now)).map Prod.fst = s.map Prod.fst := by
  rw [List.map_map]
  have : (Prod.fst ∘ assignK o now) = (Prod.fst : String × Aircraft → String) :=
    funext (fun kv => assignK_fst o now kv)
  rw [this]

theorem keysNodup_upsert {s : List (String × Aircraft)} {o : Aircraft} {now : Int}
    (h : (s.map Prod.fst).Nodup) : ((upsertObs s o now).map Prod.fst).Nodup := by
  by_cases hc : containsKey s o.icao24 = true
  · rw [upsertObs_of_contains now hc, keys_map_assignK]; exact h
  · rw [upsertObs_of_not_contains now (by simpa using hc), List.map_append]
    refine List.Nodup.append h (by simp) ?_
    intro a ha hb
    simp at hb
    rcases List.mem_map.mp ha with ⟨kv, hkv, hfst⟩
    exact hc (containsKey_iff.mpr ⟨kv, hkv, by rw [hfst, hb]⟩)

theorem keysNodup_mergePhase {batch : List Aircraft} {now : Int}
    {s : List (String × Aircraft)} (h : (s.map Prod.fst).Nodup) :
    ((mergePhase s batch now).map Prod.fst).Nodup := by
  induction batch generalizing s with
  | nil => exact h
  | cons o rest ih => exact ih (keysNodup_upsert h)

theorem lookupStore_eq_none_iff {s : List (String × Aircraft)} {k : String} :
    lookupStore s k = none ↔ ∀ kv ∈ s, kv.1 ≠ k := by
  simp [lookupStore, List.find?_eq_none]

theorem lookupStore_nil (k : String) : lookupStore [] k = none := rfl

theorem lookupStore_cons (kv : String × Aircraft) (rest : List (String × Aircraft))
    (k : String) :
    lookupStore (kv :: rest) k = if kv.1 = k then some kv.2 else lookupStore rest k := by
  unfold lookupStore
  rw [List.find?_cons]
  by_cases h : kv.1 = k
  · have hb : (kv.1 == k) = true := by simpa using h
    rw [hb, if_pos h]
    rfl
  · have hb : (kv.1 == k) = false := by simpa using h
    rw [hb, if_neg h]

theorem lookupStore_mem {s : List (String × Aircraft)} {k : String} {v : Aircraft}
    (h : lookupStore s k = some v) : (k, v) ∈ s := by
  induction s with
  | nil => simp [lookupStore] at h
  | cons kv rest ih =>
    rw [lookupStore_cons] at h
    by_cases hk : kv.1 = k
    · rw [if_pos hk] at h
      cases h
      have : (k, kv.2) = kv := by rw [← hk]
      rw [this]
      exact List.mem_cons_self _ _
    · rw [if_neg hk] at h
      exact List.mem_cons_of_mem _ (ih h)

theorem lookupStore_map_assignK_ne {s : List (String × Aircraft)} {o : Aircraft} {now : Int}
    {k : String} (hne : k ≠ o.icao24) :
    lookupStore (s.map (assignK o now)) k = lookupStore s k := by
  induction s with
  | nil => rfl
  | cons kv rest ih =>
    by_cases hk : kv.1 = k
    · have hvv : assignK o now kv = kv := by
        unfold assignK
        have hno : ¬((kv.1 == o.icao24) = true) := by
          simp only [beq_iff_eq]
          rw [hk]
          exact hne
        rw [if_neg hno]
      rw [List.map_cons, hvv, lookupStore_cons, lookupStore_cons, if_pos hk, if_pos hk]
    · rw [List.map_cons, lookupStore_cons, lookupStore_cons, assignK_fst, if_neg hk, if_neg hk]
      exact ih

theorem lookupStore_append_single_ne {s : List (String × Aircraft)} {k k' : String}
    {v : Aircraft} (hne : k ≠ k') : lookupStore (s ++ [(k', v)]) k = lookupStore s k := by
  induction s with
  | nil =>
    rw [List.nil_append, lookupStore_cons]
    rw [if_neg (fun he => hne ((show (k', v).1 = k from he) ▸ rfl))]
  | cons kv rest ih =>
    rw [List.cons_append, lookupStore_cons, lookupStore_cons]
    by_cases hk : kv.1 = k
    · rw [if_pos hk, if_pos hk]
    · rw [if_neg hk, if_neg hk]
      exact ih

theorem lookupStore_upsert_ne {s : List (String × Aircraft)} {o : Aircraft} {now : Int}
    {k : String} (hne : k ≠ o.icao24) :
    lookupStore (upsertObs s o now) k = lookupStore s k := by
  by_cases hc : containsKey s o.icao24 = true
  · rw [upsertObs_of_contains now hc]
    exact lookupStore_map_assignK_ne hne
  · rw [upsertObs_of_not_contains now (by simpa using hc)]
    exact lookupStore_append_single_ne hne

theorem lookupStore_mergePhase_frame {batch : List Aircraft} {now : Int}
    {s : List (String × Aircraft)} {k : String} (hk : k ∉ batchIds batch) :
    lookupStore (mergePhase s batch now) k = lookupStore s k := by
  induction batch generalizing s with
  | nil => rfl
  | cons o rest ih =>
    have hk' : k ∉ batchIds rest := fun hm => hk (by
      rw [batchIds_cons]; exact List.mem_cons_of_mem _ hm)
    have hne : k ≠ o.icao24 := fun he => hk (by
      rw [batchIds_cons, he]; exact List.mem_cons_self _ _)
    rw [mergePhase_cons, ih hk', lookupStore_upsert_ne hne]

theorem lookupStore_filter_nodup {s : List (String × Aircraft)} {k : String}
    (hnd : (s.map Prod.fst).Nodup) (p : String × Aircraft → Bool) :
    lookupStore (s.filter p) k =
      match lookupStore s k with
      | some v => if p (k, v) = true then some v else none
      | none => none := by
  induction s with
  | nil => rfl
  | cons kv rest ih =>
    rw [List.map_cons, List.nodup_cons] at hnd
    obtain ⟨hknotin, hnd'⟩ := hnd
    by_cases hk : kv.1 = k
    · have hnone : lookupStore (rest.filter p) k = none := by
        rw [lookupStore_eq_none_iff]
        intro kv' hkv' he
        exact hknotin (by
          rw [hk, ← he]
          exact List.mem_map.mpr ⟨kv', List.mem_of_mem_filter hkv', rfl⟩)
      have hkveq : (k, kv.2) = kv := by rw [← hk]
      by_cases hp : p kv = true
      · rw [List.filter_cons_of_pos hp, lookupStore_cons, lookupStore_cons, if_pos hk, if_pos hk]
        show some kv.2 = if p (k, kv.2) = true then some kv.2 else none
        rw [hkveq, if_pos hp]
      · have hp' : p kv = false := by simpa using hp
        rw [List.filter_cons_of_neg (by simpa using hp), lookupStore_cons, if_pos hk]
        show lookupStore (rest.filter p) k = if p (k, kv.2) = true then some kv.2 else none
        rw [hnone, hkveq, hp']
        rfl
    · by_cases hp : p kv = true
      · rw [List.filter_cons_of_pos hp, lookupStore_cons, lookupStore_cons, if_neg hk, if_neg hk]
        exact ih hnd'
      · rw [List.filter_cons_of_neg (by simpa using hp), lookupStore_cons, if_neg hk]
        exact ih hnd'

theorem sweepKeep_of_mem {ids : List String} {now : Int} {kv : String × Aircraft}
    (h : kv.1 ∈ ids) : sweepKeep ids now kv = true := by
  unfold sweepKeep
  rw [if_pos h]

theorem sweepKeep_eq_false_iff {ids : List String} {now : Int} {kv : String × Aircraft} :
    sweepKeep ids now kv = false ↔ kv.1 ∉ ids ∧ now - kv.2.lastSeen > evictionTimeoutMs := by
  unfold sweepKeep
  by_cases h : kv.1 ∈ ids
  · simp [h]
  · by_cases h2 : now - kv.2.lastSeen > evictionTimeoutMs
    · simp [h, h2]
    · simp [h, h2]

/-! Claim theorems. -/

/-- C1: on every updateAircraft call, a record already in the store is
removed by the sweep iff its id does not appear in the batch AND the time
since its `lastSeen` exceeds the 120 s eviction timeout; a record whose id
appears in the batch is never evicted, however stale; and if the removed
record was the currently selected aircraft, the selection is cleared. -/
theorem spec_c1_eviction (st : MState) (batch : List Aircraft) (now : Int) (id : String)
    (rec : Aircraft) (hnd : (st.store.map Prod.fst).Nodup)
    (hlook : lookupStore st.store id = some rec) :
    (lookupStore (updateAircraft st batch now).store id = none ↔
      (id ∉ batchIds batch ∧ now - rec.lastSeen > evictionTimeoutMs))
    ∧ (id ∈ batchIds batch →
        ∃ rec', lookupStore (updateAircraft st batch now).store id = some rec')
    ∧ (st.selected = some id → id ∉ batchIds batch → now - rec.lastSeen > evictionTimeoutMs →
        (updateAircraft st batch now).selected = none) := by
  have hndm : ((mergePhase st.store batch now).map Prod.fst).Nodup := keysNodup_mergePhase hnd
  have hstore : (updateAircraft st batch now).store =
      (mergePhase st.store batch now).filter (sweepKeep (batchIds batch) now) := rfl
  by_cases hin : id ∈ batchIds batch
  · rcases List.mem_map.mp hin with ⟨o, ho, hicao⟩
    have hcont : containsKey (mergePhase st.store batch now) id = true := by
      rw [← hicao]
      exact containsKey_mergePhase_of_mem st.store now ho
    rcases containsKey_iff.mp hcont with ⟨kv, hkv, hkv1⟩
    have hlm : lookupStore (mergePhase st.store batch now) id ≠ none := by
      intro hc
      exact (lookupStore_eq_none_iff.mp hc) kv hkv hkv1
    rcases Option.ne_none_iff_exists'.mp hlm with ⟨v, hv⟩
    have hkeep : sweepKeep (batchIds batch) now (id, v) = true :=
      sweepKeep_of_mem hin
    have hswept : lookupStore (updateAircraft st batch now).store id = some v := by
      rw [hstore, lookupStore_filter_nodup hndm, hv]
      show (if sweepKeep (batchIds batch) now (id, v) = true then some v else none) = some v
      rw [if_pos hkeep]
    refine ⟨?_, fun _ => ⟨v, hswept⟩, fun _ hno _ => absurd hin hno⟩
    rw [hswept]
    constructor
    · intro h; cases h
    · intro ⟨hno, _⟩; exact absurd hin hno
  · have hlm : lookupStore (mergePhase st.store batch now) id = some rec := by
      rw [lookupStore_mergePhase_frame hin, hlook]
    have hchar : lookupStore (updateAircraft st batch now).store id =
        (if sweepKeep (batchIds batch) now (id, rec) = true then some rec else none) := by
      rw [hstore, lookupStore_filter_nodup hndm, hlm]
    refine ⟨?_, fun hc => absurd hc hin, ?_⟩
    · rw [hchar]
      by_cases hkeep : sweepKeep (batchIds batch) now (id, rec) = true
      · rw [if_pos hkeep]
        constructor
        · intro h; cases h
        · intro ⟨hno, hstale⟩
          have : sweepKeep (batchIds batch) now (id, rec) = false :=
            sweepKeep_eq_false_iff.mpr ⟨hno, hstale⟩
          rw [hkeep] at this
          cases this
      · rw [if_neg hkeep]
        have hfalse : sweepKeep (batchIds batch) now (id, rec) = false :=
          Bool.eq_false_iff.mpr hkeep
        rcases sweepKeep_eq_false_iff.mp hfalse with ⟨h1, h2⟩
        exact ⟨fun _ => ⟨h1, h2⟩, fun _ => rfl⟩
    · intro hsel hno hstale
      have hmem : (id, rec) ∈ mergePhase st.store batch now := lookupStore_mem hlm
      have hany : (mergePhase st.store batch now).any
          (fun kv => kv.1 == id && !(sweepKeep (batchIds batch) now kv)) = true := by
        rw [List.any_eq_true]
        refine ⟨(id, rec), hmem, ?_⟩
        have hfalse : sweepKeep (batchIds batch) now (id, rec) = false :=
          sweepKeep_eq_false_iff.mpr ⟨hno, hstale⟩
        rw [hfalse]
        simp
      have hseleq : (updateAircraft st batch now).selected =
          (match st.selected with
           | none => none
           | some sid =>
             if (mergePhase st.store batch now).any
                 (fun kv => kv.1 == sid && !(sweepKeep (batchIds batch) now kv)) then none
             else some sid) := rfl
      rw [hseleq, hsel]
      show (if (mergePhase st.store batch now).any
          (fun kv => kv.1 == id && !(sweepKeep (batchIds batch) now kv)) = true then none
          else some id) = none
      rw [if_pos hany]

/-- C1 witness: the spec scenario; ingest `a1`, then 121 s later run an
empty update: the record is evicted (and a selected `a1` is deselected). -/
theorem spec_c1_eviction_witness :
    lookupStore (updateAircraft (updateAircraft initState [sampleObs "a1" 10 10] 0) [] 121000).store
      "a1" = none := by
  have h := spec_c1_eviction (updateAircraft initState [sampleObs "a1" 10 10] 0) [] 121000 "a1"
    { sampleObs "a1" 10 10 with lastSeen := 0 } (by decide) (by decide)
  exact h.1.mpr ⟨by decide, by decide⟩

/-- C4: reconciling the same observation batch twice at the same timestamp
leaves the manager state (records, trails, filtered view, selection)
exactly as reconciling it once - here even `lastSeen` agrees, because the
timestamp is the same.  The batches produced by the parser always carry an
empty `trail` field, which the first conjunct records. -/
theorem spec_c4_idempotent :
    (∀ (now : Int) (s : RawState) (rec : Aircraft),
      parseStateVector now s = some rec → rec.trail = []) ∧
    (∀ (st : MState) (batch : List Aircraft) (now : Int),
      (∀ o ∈ batch, o.trail = []) →
      updateAircraft (updateAircraft st batch now) batch now =
        updateAircraft st batch now) := by
  constructor
  · intro now s rec h
    unfold parseStateVector at h
    cases hlat : s.latitude with
    | none => rw [hlat] at h; cases h
    | some latitude =>
      cases hlon : s.longitude with
      | none => rw [hlat, hlon] at h; cases h
      | some longitude =>
        rw [hlat, hlon] at h
        simp only at h
        split at h
        · cases h
          rfl
        · cases h
  · intro st batch now hbt
    have hcont2 : ∀ o ∈ batch,
        containsKey (updateAircraft st batch now).store o.icao24 = true := by
      intro o ho
      have h1 : containsKey (mergePhase st.store batch now) o.icao24 = true :=
        containsKey_mergePhase_of_mem st.store now ho
      rcases containsKey_iff.mp h1 with ⟨kv, hkv, hk1⟩
      apply containsKey_iff.mpr
      refine ⟨kv, ?_, hk1⟩
      show kv ∈ (mergePhase st.store batch now).filter (sweepKeep (batchIds batch) now)
      exact List.mem_filter.mpr
        ⟨hkv, sweepKeep_of_mem (by rw [hk1]; exact List.mem_map.mpr ⟨o, ho, rfl⟩)⟩
    have hkeep2 : ∀ kv ∈ (updateAircraft st batch now).store,
        sweepKeep (batchIds batch) now kv = true := by
      intro kv hkv
      exact (List.mem_filter.mp hkv).2
    have hmem21 : ∀ kv ∈ (updateAircraft st batch now).store,
        kv ∈ mergePhase st.store batch now := by
      intro kv hkv
      exact (List.mem_filter.mp hkv).1
    have merge2 : mergePhase (updateAircraft st batch now).store batch now =
        (updateAircraft st batch now).store := by
      rw [mergePhase_eq_map hcont2]
      apply list_map_id_of_mem
      intro kv hkv
      unfold assignAllMap
      cases hl : lastObsFor batch kv.1 with
      | none => rfl
      | some o' =>
        have hv : kv.2 = { o' with lastSeen := now } :=
          mergePhase_value_at_key hbt st.store kv (hmem21 kv hkv) o' hl
        show (kv.1, { o' with lastSeen := now }) = kv
        rw [← hv]
    have sweep2 : ((updateAircraft st batch now).store).filter
        (sweepKeep (batchIds batch) now) = (updateAircraft st batch now).store :=
      List.filter_eq_self.mpr hkeep2
    have hany2 : ∀ sid : String, ((updateAircraft st batch now).store).any
        (fun kv => kv.1 == sid && !(sweepKeep (batchIds batch) now kv)) = false := by
      intro sid
      apply List.any_eq_false.mpr
      intro kv hkv
      rw [hkeep2 kv hkv]
      simp
    have hsel2 : (updateAircraft (updateAircraft st batch now) batch now).selected
        = (updateAircraft st batch now).selected := by
      have hchar : (updateAircraft (updateAircraft st batch now) batch now).selected =
          (match (updateAircraft st batch now).selected with
           | none => none
           | some sid =>
             if (mergePhase (updateAircraft st batch now).store batch now).any
                 (fun kv => kv.1 == sid && !(sweepKeep (batchIds batch) now kv)) then none
             else some sid) := rfl
      rw [hchar]
      cases hs : (updateAircraft st batch now).selected with
      | none => rfl
      | some sid =>
        rw [merge2]
        show (if ((updateAircraft st batch now).store).any
            (fun kv => kv.1 == sid && !(sweepKeep (batchIds batch) now kv)) = true then none
            else some sid) = some sid
        rw [hany2 sid]
        rfl
    have hst2 : (updateAircraft (updateAircraft st batch now) batch now).store
        = (updateAircraft st batch now).store := by
      show (mergePhase (updateAircraft st batch now).store batch now).filter
          (sweepKeep (batchIds batch) now) = _
      rw [merge2, sweep2]
    have hfil2 : (updateAircraft (updateAircraft st batch now) batch now).filtered
        = (updateAircraft st batch now).filtered := by
      show applyFilters ((mergePhase (updateAircraft st batch now).store batch now).filter
          (sweepKeep (batchIds batch) now)) (updateAircraft st batch now).filters
        = (updateAircraft st batch now).filtered
      rw [merge2, sweep2]
      rfl
    have heta : updateAircraft (updateAircraft st batch now) batch now =
        ⟨(updateAircraft (updateAircraft st batch now) batch now).store,
         (updateAircraft (updateAircraft st batch now) batch now).selected,
         (updateAircraft (updateAircraft st batch now) batch now).filters,
         (updateAircraft (updateAircraft st batch now) batch now).filtered⟩ := rfl
    have hfl2 : (updateAircraft (updateAircraft st batch now) batch now).filters
        = (updateAircraft st batch now).filters := rfl
    rw [heta, hst2, hsel2, hfl2, hfil2]

/-- C4 witness: applying the same one-observation batch twice at timestamp 5
equals applying it once, starting from a nonempty store with a selection. -/
theorem spec_c4_idempotent_witness :
    (∀ o ∈ [sampleObs "a1" 10 10], o.trail = []) ∧
    updateAircraft (updateAircraft
        { initState with store := [("b2", sampleObs "b2" 20 20)], selected := some "b2" }
        [sampleObs "a1" 10 10] 5) [sampleObs "a1" 10 10] 5 =
      updateAircraft
        { initState with store := [("b2", sampleObs "b2" 20 20)], selected := some "b2" }
        [sampleObs "a1" 10 10] 5 :=
  ⟨by decide, spec_c4_idempotent.2
    { initState with store := [("b2", sampleObs "b2" 20 20)], selected := some "b2" }
    [sampleObs "a1" 10 10] 5 (by decide)⟩

theorem truncateTrail_length_le (n : Nat) (l : List TrailPoint) :
    (truncateTrail n l).length ≤ n ∨ ((truncateTrail n l) = l ∧ l.length ≤ n) := by
  unfold truncateTrail
  split
  next h => left; rw [List.length_drop]; omega
  next h => right; exact ⟨rfl, by omega⟩

theorem pruneTrailByAge_mem {now d : Int} {l : List TrailPoint} {p : TrailPoint}
    (h : p ∈ pruneTrailByAge now d l) : now - p.time < d := by
  have := (List.mem_filter.mp h).2
  simpa using this

theorem addTrailPoint_empty (a o : Aircraft) (now : Int) (h : a.trail.getLast? = none) :
    addTrailPoint a o now = { a with
      trail := pruneTrailByAge now trailDuration (truncateTrail trailMaxPoints
        (a.trail ++ [⟨o.lat, o.lon, o.altitude, now⟩])) } := by
  unfold addTrailPoint
  rw [h]

theorem addTrailPoint_skip (a o : Aircraft) (now : Int) (lastTrail : TrailPoint)
    (h : a.trail.getLast? = some lastTrail)
    (hd : calculateDistance lastTrail.lat lastTrail.lon o.lat o.lon < (0.1 : Real)) :
    addTrailPoint a o now = a := by
  unfold addTrailPoint
  rw [h]
  exact if_pos hd

theorem addTrailPoint_push (a o : Aircraft) (now : Int) (lastTrail : TrailPoint)
    (h : a.trail.getLast? = some lastTrail)
    (hd : ¬ calculateDistance lastTrail.lat lastTrail.lon o.lat o.lon < (0.1 : Real)) :
    addTrailPoint a o now = { a with
      trail := pruneTrailByAge now trailDuration (truncateTrail trailMaxPoints
        (a.trail ++ [⟨o.lat, o.lon, o.altitude, now⟩])) } := by
  unfold addTrailPoint
  rw [h]
  exact if_neg hd

theorem pushedTrail_bounds (l : List TrailPoint) (pt : TrailPoint) (now : Int) :
    (pruneTrailByAge now trailDuration (truncateTrail trailMaxPoints (l ++ [pt]))).length ≤
      trailMaxPoints ∧
    ∀ p ∈ pruneTrailByAge now trailDuration (truncateTrail trailMaxPoints (l ++ [pt])),
      now - p.time < trailDuration := by
  constructor
  · calc (pruneTrailByAge now trailDuration (truncateTrail trailMaxPoints (l ++ [pt]))).length
        ≤ (truncateTrail trailMaxPoints (l ++ [pt])).length := List.length_filter_le _ _
      _ ≤ trailMaxPoints := by
          rcases truncateTrail_length_le trailMaxPoints (l ++ [pt]) with h' | ⟨he, hl⟩
          · exact h'
          · rw [he]; exact hl
  · intro p hp
    exact pruneTrailByAge_mem hp

/-- C3: after every ingest every stored record's trail is within the
configured bounds (at most `trailMaxPoints` points, no retained point older
than `trailDuration`) - in this code because every reachable store has only
empty trails (the first conjunct is the preserved invariant); and inside
addTrailPoint the two prunings are applied in a fixed order: point-count
truncation first, then age-based pruning (second and third conjuncts). -/
theorem spec_c3_trail_bounds :
    (∀ (st : MState) (batch : List Aircraft) (now : Int),
      (∀ kv ∈ st.store, kv.2.trail = []) → (∀ o ∈ batch, o.trail = []) →
      ∀ kv ∈ (updateAircraft st batch now).store, kv.2.trail = [] ∧
        kv.2.trail.length ≤ trailMaxPoints ∧
        ∀ p ∈ kv.2.trail, now - p.time < trailDuration) ∧
    (∀ (a o : Aircraft) (now : Int),
      addTrailPoint a o now = a ∨
      addTrailPoint a o now = { a with
        trail := pruneTrailByAge now trailDuration (truncateTrail trailMaxPoints
          (a.trail ++ [⟨o.lat, o.lon, o.altitude, now⟩])) }) ∧
    (∀ (a o : Aircraft) (now : Int),
      (addTrailPoint a o now).trail = a.trail ∨
      ((addTrailPoint a o now).trail.length ≤ trailMaxPoints ∧
        ∀ p ∈ (addTrailPoint a o now).trail, now - p.time < trailDuration)) := by
  refine ⟨?_, ?_, ?_⟩
  · intro st batch now hst hbt kv hkv
    have hkv1 : kv ∈ mergePhase st.store batch now := (List.mem_filter.mp hkv).1
    have htrail : kv.2.trail = [] := by
      rcases mem_mergePhase hkv1 with hmem | ⟨o, ho, _, hv | hv⟩
      · exact hst kv hmem
      · rw [hv]
        exact hbt o ho
      · rw [hv]
        rfl
    refine ⟨htrail, ?_, ?_⟩
    · rw [htrail]; simp [trailMaxPoints]
    · rw [htrail]; intro p hp; cases hp
  · intro a o now
    cases h : a.trail.getLast? with
    | none => exact Or.inr (addTrailPoint_empty a o now h)
    | some lastTrail =>
      by_cases hd : calculateDistance lastTrail.lat lastTrail.lon o.lat o.lon < (0.1 : Real)
      · exact Or.inl (addTrailPoint_skip a o now lastTrail h hd)
      · exact Or.inr (addTrailPoint_push a o now lastTrail h hd)
  · intro a o now
    cases h : a.trail.getLast? with
    | none =>
      right
      rw [addTrailPoint_empty a o now h]
      exact pushedTrail_bounds a.trail _ now
    | some lastTrail =>
      by_cases hd : calculateDistance lastTrail.lat lastTrail.lon o.lat o.lon < (0.1 : Real)
      · left
        rw [addTrailPoint_skip a o now lastTrail h hd]
      · right
        rw [addTrailPoint_push a o now lastTrail h hd]
        exact pushedTrail_bounds a.trail _ now

/-- C3 witness: a concrete ingest into a store satisfying the invariant,
and a concrete addTrailPoint call on an empty-trail record. -/
theorem spec_c3_trail_bounds_witness :
    (∀ kv ∈ ({ initState with store := [("b2", sampleObs "b2" 20 20)] } : MState).store,
      kv.2.trail = []) ∧
    (∀ o ∈ [sampleObs "a1" 10 10], o.trail = []) ∧
    ∀ kv ∈ (updateAircraft { initState with store := [("b2", sampleObs "b2" 20 20)] }
        [sampleObs "a1" 10 10] 5).store,
      kv.2.trail = [] ∧ kv.2.trail.length ≤ trailMaxPoints ∧
        ∀ p ∈ kv.2.trail, 5 - p.time < trailDuration :=
  ⟨by decide, by decide,
    spec_c3_trail_bounds.1 { initState with store := [("b2", sampleObs "b2" 20 20)] }
      [sampleObs "a1" 10 10] 5 (by decide) (by decide)⟩

theorem filterPred_eq_true_iff (f : Filters) (a : Aircraft) :
    filterPred f a = true ↔
      ((a.isMilitary = true → f.military = true) ∧
       (a.isMilitary = false → f.civilian = true) ∧
       (∀ alt, a.altitude = some alt → f.minAltitude ≤ alt ∧ alt ≤ f.maxAltitude) ∧
       (f.searchQuery ≠ "" →
         (strIncludes (jsToLower a.callsign) (jsToLower f.searchQuery) = true ∨
          strIncludes (jsToLower a.icao24) (jsToLower f.searchQuery) = true))) := by
  unfold filterPred
  cases hm : a.isMilitary <;> cases hmil : f.military <;> cases hciv : f.civilian <;>
    cases halt : a.altitude <;>
    by_cases hq : f.searchQuery = "" <;>
    simp_all

/-- C5: applyFilters is a pure recomputation over the store and the filter
state; its output is exactly the stored records passing all the active
predicates (visibility flag matching `isMilitary`; altitude, when present,
within the inclusive band; case-insensitive substring search on callsign or
id when the query is nonempty), emitted in store order (a sublist of the
store's values, no extra sort); with both visibility flags off it is empty;
and setting the search string back restores the pre-search result. -/
theorem spec_c5_filter_engine :
    (∀ (st : MState) (batch : List Aircraft) (now : Int),
      (updateAircraft st batch now).filtered =
        applyFilters (updateAircraft st batch now).store st.filters) ∧
    (∀ (store : List (String × Aircraft)) (f : Filters),
      (applyFilters store f).Sublist (store.map Prod.snd)) ∧
    (∀ (store : List (String × Aircraft)) (f : Filters) (a : Aircraft),
      a ∈ applyFilters store f ↔
        (a ∈ store.map Prod.snd ∧
         (a.isMilitary = true → f.military = true) ∧
         (a.isMilitary = false → f.civilian = true) ∧
         (∀ alt, a.altitude = some alt → f.minAltitude ≤ alt ∧ alt ≤ f.maxAltitude) ∧
         (f.searchQuery ≠ "" →
           (strIncludes (jsToLower a.callsign) (jsToLower f.searchQuery) = true ∨
            strIncludes (jsToLower a.icao24) (jsToLower f.searchQuery) = true)))) ∧
    (∀ (store : List (String × Aircraft)) (f : Filters),
      f.military = false → f.civilian = false → applyFilters store f = []) ∧
    (∀ (store : List (String × Aircraft)) (f : Filters) (q : String),
      applyFilters store { { f with searchQuery := q } with searchQuery := f.searchQuery } =
        applyFilters store f) := by
  refine ⟨fun st batch now => rfl, fun store f => List.filter_sublist _, ?_, ?_, ?_⟩
  · intro store f a
    unfold applyFilters
    rw [List.mem_filter, filterPred_eq_true_iff]
  · intro store f hmil hciv
    unfold applyFilters
    rw [List.filter_eq_nil_iff]
    intro a _
    cases hm : a.isMilitary <;> simp [filterPred, hm, hmil, hciv]
  · intro store f q
    have he : ({ { f with searchQuery := q } with searchQuery := f.searchQuery } : Filters)
        = f := by
      cases f
      rfl
    rw [he]

/-- C5 witness: with both visibility flags off the filtered view of a
concrete nonempty store is empty. -/
theorem spec_c5_filter_engine_witness :
    ({ defaultFilters with military := false, civilian := false } : Filters).military = false ∧
    ({ defaultFilters with military := false, civilian := false } : Filters).civilian = false ∧
    applyFilters [("a1", sampleObs "a1" 10 10)]
      { defaultFilters with military := false, civilian := false } = [] :=
  ⟨rfl, rfl, spec_c5_filter_engine.2.2.2.1 [("a1", sampleObs "a1" 10 10)]
    { defaultFilters with military := false, civilian := false } rfl rfl⟩

/-- C6 counterexample: the claim's characterisation fails at the empty id:
the code returns false for `classify("", "NAVY1")` although the trimmed,
uppercased callsign "NAVY1" starts with the configured military marker
"NAVY", so the claimed iff predicts true. -/
theorem spec_c6_counterexample :
    isMilitaryAircraft "" (some "NAVY1") = false ∧
    specClassify "" (some "NAVY1") = true := by
  constructor
  · rfl
  · decide

/-- C6 amended: the classifier is a pure function of its two arguments, and
for a NON-EMPTY id it returns true iff the id parses as a base-16 integer
inside a configured military ICAO range, or else the trimmed, uppercased
callsign starts with a configured military callsign marker; for the empty
(falsy) id it returns false regardless of the callsign.  In particular for
id "ADF7C9" it returns true for every callsign. -/
theorem spec_c6_amended :
    (∀ (icao24 : String) (callsign : Option String),
      isMilitaryAircraft icao24 callsign =
        if icao24 = "" then false else specClassify icao24 callsign) ∧
    (∀ callsign : Option String, isMilitaryAircraft "ADF7C9" callsign = true) := by
  constructor
  · intro icao24 callsign
    by_cases hi : icao24 = ""
    · simp only [isMilitaryAircraft, if_pos hi]
    · simp only [isMilitaryAircraft, specClassify, if_neg hi]
      cases hr : icaoRanges.any (fun r =>
          match parseHexInt (jsTrim icao24) with
          | some n => decide (r.1 ≤ n ∧ n ≤ r.2)
          | none => false) with
      | true => simp
      | false =>
        simp only [Bool.false_or, if_false]
        cases callsign with
        | none => rfl
        | some c =>
          by_cases hc : c = ""
          · subst hc
            simp only [ne_eq, not_true_eq_false, if_false]
            decide
          · simp [hc]
  · intro callsign
    rfl

theorem isValid_true_elim {lat lon : Rat} {alt spd : Option Int}
    (h : isValidAircraftData lat lon alt spd = true) :
    -90 ≤ lat ∧ lat ≤ 90 ∧ -180 ≤ lon ∧ lon ≤ 180 ∧
    (∀ a, alt = some a → dqMinAltitude ≤ a ∧ a ≤ dqMaxAltitude) ∧
    (∀ sp, spd = some sp → dqMinSpeed ≤ sp ∧ sp ≤ dqMaxSpeed) := by
  unfold isValidAircraftData at h
  split at h
  · simp at h
  next h1 =>
    split at h
    · simp at h
    next h2 =>
      split at h
      · simp at h
      next h3 =>
        split at h
        · simp at h
        next h4 =>
          push_neg at h1 h2
          refine ⟨by linarith [h1.1], by linarith [h1.2], by linarith [h2.1],
            by linarith [h2.2], ?_, ?_⟩
          · intro a ha
            rw [ha] at h3
            simp only [Bool.or_eq_true, decide_eq_true_eq] at h3
            push_neg at h3
            omega
          · intro sp hsp
            rw [hsp] at h4
            simp only [Bool.or_eq_true, decide_eq_true_eq] at h4
            push_neg at h4
            omega

theorem isValid_false_of_bad_lat_lon {lat lon : Rat} (alt spd : Option Int)
    (h : lat < -90 ∨ lat > 90 ∨ lon < -180 ∨ lon > 180) :
    isValidAircraftData lat lon alt spd = false := by
  unfold isValidAircraftData
  rcases h with h | h | h | h
  · rw [if_pos (Or.inl h)]
  · rw [if_pos (Or.inr h)]
  · by_cases h1 : lat < -90 ∨ lat > 90
    · rw [if_pos h1]
    · rw [if_neg h1, if_pos (Or.inl h)]
  · by_cases h1 : lat < -90 ∨ lat > 90
    · rw [if_pos h1]
    · rw [if_neg h1, if_pos (Or.inr h)]

theorem isValid_false_of_bad_alt (lat lon : Rat) {a : Int} (spd : Option Int)
    (h : a < dqMinAltitude ∨ a > dqMaxAltitude) :
    isValidAircraftData lat lon (some a) spd = false := by
  unfold isValidAircraftData
  by_cases h1 : lat < -90 ∨ lat > 90
  · rw [if_pos h1]
  · rw [if_neg h1]
    by_cases h2 : lon < -180 ∨ lon > 180
    · rw [if_pos h2]
    · rw [if_neg h2]
      have hcond : (decide (a < dqMinAltitude) || decide (a > dqMaxAltitude)) = true := by
        rcases h with h | h <;> simp [h]
      rw [if_pos hcond]

theorem isValid_false_of_bad_speed (lat lon : Rat) {sp : Int} (alt : Option Int)
    (h : sp < dqMinSpeed ∨ sp > dqMaxSpeed) :
    isValidAircraftData lat lon alt (some sp) = false := by
  unfold isValidAircraftData
  by_cases h1 : lat < -90 ∨ lat > 90
  · rw [if_pos h1]
  · rw [if_neg h1]
    by_cases h2 : lon < -180 ∨ lon > 180
    · rw [if_pos h2]
    · rw [if_neg h2]
      by_cases h3 : (match alt with
          | some a => decide (a < dqMinAltitude) || decide (a > dqMaxAltitude)
          | none => false) = true
      · rw [if_pos h3]
      · rw [if_neg h3]
        have hcond : (decide (sp < dqMinSpeed) || decide (sp > dqMaxSpeed)) = true := by
          rcases h with h | h <;> simp [h]
        rw [if_pos hcond]

/-- C7: the parser either yields a complete record or drops the whole
vector - vectors with null latitude or longitude, latitude outside
[-90, 90], longitude outside [-180, 180], converted altitude outside
[-1000, 60000] ft or converted speed outside [30, 700] kn are discarded
entirely; an accepted record carries the converted values unclamped, within
those bounds. -/
theorem spec_c7_parse_validation :
    (∀ (now : Int) (s : RawState),
      s.latitude = none ∨ s.longitude = none → parseStateVector now s = none) ∧
    (∀ (now : Int) (s : RawState) (lat lon : Rat),
      s.latitude = some lat → s.longitude = some lon →
      (lat < -90 ∨ lat > 90 ∨ lon < -180 ∨ lon > 180) → parseStateVector now s = none) ∧
    (∀ (now : Int) (s : RawState) (b : Rat),
      s.baro_altitude = some b →
      (jsRound (b * (3.28084 : Rat)) < dqMinAltitude ∨
        jsRound (b * (3.28084 : Rat)) > dqMaxAltitude) →
      parseStateVector now s = none) ∧
    (∀ (now : Int) (s : RawState) (v : Rat),
      s.velocity = some v →
      (jsRound (v * (1.94384 : Rat)) < dqMinSpeed ∨
        jsRound (v * (1.94384 : Rat)) > dqMaxSpeed) →
      parseStateVector now s = none) ∧
    (∀ (now : Int) (s : RawState) (rec : Aircraft),
      parseStateVector now s = some rec →
      s.latitude = some rec.lat ∧ s.longitude = some rec.lon ∧
      -90 ≤ rec.lat ∧ rec.lat ≤ 90 ∧ -180 ≤ rec.lon ∧ rec.lon ≤ 180 ∧
      rec.altitude = s.baro_altitude.map (fun b => jsRound (b * (3.28084 : Rat))) ∧
      rec.speed = s.velocity.map (fun v => jsRound (v * (1.94384 : Rat))) ∧
      (∀ a, rec.altitude = some a → dqMinAltitude ≤ a ∧ a ≤ dqMaxAltitude) ∧
      (∀ sp, rec.speed = some sp → dqMinSpeed ≤ sp ∧ sp ≤ dqMaxSpeed)) := by
  refine ⟨?_, ?_, ?_, ?_, ?_⟩
  · intro now s h
    rcases h with h | h <;> cases hlat : s.latitude <;> cases hlon : s.longitude <;>
      simp_all [parseStateVector]
  · intro now s lat lon hlat hlon hbad
    have hval := isValid_false_of_bad_lat_lon
      (s.baro_altitude.map fun b => jsRound (b * (3.28084 : Rat)))
      (s.velocity.map fun v => jsRound (v * (1.94384 : Rat))) hbad
    simp [parseStateVector, hlat, hlon, hval]
  · intro now s b hb hbad
    cases hlat : s.latitude with
    | none => simp [parseStateVector, hlat]
    | some lat =>
      cases hlon : s.longitude with
      | none => simp [parseStateVector, hlat, hlon]
      | some lon =>
        have hval := isValid_false_of_bad_alt lat lon
          (s.velocity.map fun v => jsRound (v * (1.94384 : Rat))) hbad
        simp [parseStateVector, hlat, hlon, hb, hval]
  · intro now s v hv hbad
    cases hlat : s.latitude with
    | none => simp [parseStateVector, hlat]
    | some lat =>
      cases hlon : s.longitude with
      | none => simp [parseStateVector, hlat, hlon]
      | some lon =>
        have hval := isValid_false_of_bad_speed lat lon
          (s.baro_altitude.map fun b => jsRound (b * (3.28084 : Rat))) hbad
        simp [parseStateVector, hlat, hlon, hv, hval]
  · intro now s rec h
    unfold parseStateVector at h
    cases hlat : s.latitude with
    | none => rw [hlat] at h; cases h
    | some lat =>
      cases hlon : s.longitude with
      | none => rw [hlat, hlon] at h; cases h
      | some lon =>
        rw [hlat, hlon] at h
        simp only at h
        split at h
        case isTrue hval =>
          have hfields := isValid_true_elim hval
          cases h
          refine ⟨rfl, rfl, hfields.1, hfields.2.1, hfields.2.2.1, hfields.2.2.2.1,
            rfl, rfl, hfields.2.2.2.2.1, hfields.2.2.2.2.2⟩
        case isFalse => cases h

/-- C7 witness: a vector whose barometric altitude converts to 98425 ft
(outside the plausible band) is dropped whole. -/
theorem spec_c7_parse_validation_witness :
    ({ sampleRaw with baro_altitude := some 30000 } : RawState).baro_altitude = some 30000 ∧
    jsRound ((30000 : Rat) * (3.28084 : Rat)) > dqMaxAltitude ∧
    parseStateVector 0 { sampleRaw with baro_altitude := some 30000 } = none :=
  ⟨rfl, by norm_num [jsRound, dqMaxAltitude],
    spec_c7_parse_validation.2.2.1 0 { sampleRaw with baro_altitude := some 30000 } 30000 rfl
      (Or.inr (by norm_num [jsRound, dqMaxAltitude]))⟩

/-- C8: a failed upstream fetch is surfaced as a distinguishable failure
signal (network error, rate-limit rejection and other HTTP statuses are
distinct `FetchError`s) and leaves the store unchanged - reconcile is never
invoked on a failed fetch, and fetchAndUpdate performs no retry. -/
theorem spec_c8_fetch_failure :
    (∀ (resp : HttpResponse) (now : Int), resp.ok = false →
      getAllStates (some resp) now =
        Except.error (if resp.status = 429 then FetchError.rateLimitExceeded
          else FetchError.httpError resp.status)) ∧
    (∀ now : Int, getAllStates none now = Except.error FetchError.networkError) ∧
    (∀ (st : MState) (lastRequestTime now : Int) (r : Option HttpResponse) (e : FetchError),
      getAllStates r now = Except.error e →
      (fetchAndUpdate st lastRequestTime now r).1 = st) := by
  refine ⟨?_, fun now => rfl, ?_⟩
  · intro resp now h
    have hred : getAllStates (some resp) now =
        (if resp.ok = false then
          (if resp.status = 429 then Except.error FetchError.rateLimitExceeded
            else Except.error (FetchError.httpError resp.status))
        else match resp.states with
          | none => Except.ok []
          | some sv => Except.ok (sv.filterMap (parseStateVector now))) := rfl
    rw [hred, if_pos h]
    by_cases hs : resp.status = 429 <;> simp [hs]
  · intro st lastRequestTime now r e h
    unfold fetchAndUpdate
    by_cases hc : canMakeRequest lastRequestTime now = false
    · rw [if_pos hc]
    · rw [if_neg hc, h]

/-- C8 witness: an HTTP 500 response is surfaced as `httpError 500` and the
manager state is untouched. -/
theorem spec_c8_fetch_failure_witness :
    getAllStates (some { ok := false, status := 500, states := none }) 10000 =
      Except.error (FetchError.httpError 500) ∧
    (fetchAndUpdate initState 0 10000
        (some { ok := false, status := 500, states := none })).1 = initState :=
  ⟨rfl, spec_c8_fetch_failure.2.2 initState 0 10000
    (some { ok := false, status := 500, states := none }) (FetchError.httpError 500) rfl⟩

/-- C9: a poll attempted before the 10 s minimum wall-clock interval since
the last outbound fetch is skipped, not queued: no outbound fetch is issued
and the store is not modified by that attempt. -/
theorem spec_c9_rate_limit_skip :
    ∀ (st : MState) (lastRequestTime now : Int) (response : Option HttpResponse),
      now - lastRequestTime < rateLimitMinInterval →
      fetchAndUpdate st lastRequestTime now response = (st, false) := by
  intro st lastRequestTime now response h
  have hc : canMakeRequest lastRequestTime now = false := by
    unfold canMakeRequest
    simp only [decide_eq_false_iff_not]
    omega
  unfold fetchAndUpdate
  rw [if_pos hc]

/-- C9 witness: a poll 5 s after the previous fetch is skipped whole. -/
theorem spec_c9_rate_limit_skip_witness :
    (5000 : Int) - 0 < rateLimitMinInterval ∧
    fetchAndUpdate initState 0 5000 none = (initState, false) :=
  ⟨by decide, spec_c9_rate_limit_skip initState 0 5000 none (by decide)⟩

theorem jsAtan2_one_zero : jsAtan2 1 0 = Real.pi / 2 := by
  unfold jsAtan2
  norm_num

theorem calculateDistance_meridian :
    calculateDistance 0 0 0 180 = 6371 * Real.pi := by
  simp only [calculateDistance, toRad]
  have h2 : ((((180 : Rat) : Real)) - ((0 : Rat) : Real)) * (Real.pi / 180) / 2 =
      Real.pi / 2 := by
    push_cast
    field_simp
  rw [h2]
  norm_num [Real.sin_pi_div_two]
  rw [jsAtan2_one_zero]
  ring

/-- C2: failing-input evaluation.  The two ingested positions (0, 0) and
(0, 180) are 6371 π km apart, far beyond the 0.1 km threshold (first
conjunct), and addTrailPoint does append a point for the second observation
(second conjunct); but after the second updateAircraft the stored record's
trail is empty, not of length 2 as the claim requires, because
`Object.assign` copies the observation's `trail: []` over the record,
discarding the appended point (third conjunct). -/
theorem spec_c2_trail_discarded :
    calculateDistance 0 0 0 180 ≥ (0.1 : Real) ∧
    (addTrailPoint { sampleObs "a1" 0 0 with lastSeen := 0 }
      (sampleObs "a1" 0 180) 1000).trail.length = 1 ∧
    (lookupStore (updateAircraft (updateAircraft initState [sampleObs "a1" 0 0] 0)
        [sampleObs "a1" 0 180] 1000).store "a1").map Aircraft.trail = some [] := by
  refine ⟨?_, ?_, by decide⟩
  · rw [calculateDistance_meridian]
    nlinarith [Real.pi_gt_three]
  · rw [addTrailPoint_empty _ _ _ (by decide)]
    decide

/-- C10: failing-input evaluation.  A record created on first observation
indeed starts with an empty trail, and addTrailPoint on an empty trail
appends unconditionally (first conjunct); but after the second observation
of a new aircraft the stored trail is empty, not of length 1, because the
`Object.assign` merge overwrites the trail with the observation's empty
one (second conjunct). -/
theorem spec_c10_second_obs_trail :
    (addTrailPoint { sampleObs "a1" 7 7 with lastSeen := 0 }
      (sampleObs "a1" 7 7) 1000).trail.length = 1 ∧
    (lookupStore (updateAircraft (updateAircraft initState [sampleObs "a1" 7 7] 0)
        [sampleObs "a1" 7 7] 1000).store "a1").map Aircraft.trail = some [] := by
  constructor
  · rw [addTrailPoint_empty _ _ _ (by decide)]
    decide
  · decide
